import Mathlib

/-
Verification of the N4 language front end: tokenizer, recursive-descent
parser, and semantic analyzer.  The definitions below are a shallow
embedding translated from the repository sources tokenizer.py, parser.py
and semantic_analyzer.py.  Python strings are modelled as List Char,
the scanning cursor as the already-consumed prefix of the input, and
Python exceptions as explicit error values: a ParserException (the only
exception the parser catches) is distinguished from an uncaught Python
runtime error (AttributeError, IndexError, KeyError), which no handler
in the sources can intercept.
-/

namespace N4

/--
TokenType enumeration from tokenizer.py (lines 3-32).  The source enum
defines exactly the members below; in particular there is no AMPERSAND
member, although Parser.parse_unary (parser.py line 481) references
TokenType.AMPERSAND.  Evaluating that reference in Python raises
AttributeError; see parse_unary below.
-/
inductive TokenType where
  | FN | IF | ELSE | WHILE | END | RETURN
  | IDENT | NUMBER | TYPE
  | LEFT_PAREN | RIGHT_PAREN | NEWLINE | COMMA | EOF
  | COMMENT
  | PLUS | MINUS | STAR | SLASH | COLON | ASSIGN
  | LESS | GREATER | LESS_EQUAL | GREATER_EQUAL
deriving DecidableEq, Repr

/--
Token from tokenizer.py (lines 82-92).  Token.__init__ stores the kind
in self.type (and resolve_keywords writes the same attribute), so the
field is named type here, exactly as in the source.  parser.py and
semantic_analyzer.py read .token_type instead, an attribute no Token
object has; in Python every such read raises AttributeError, and the
embedding models each of those reads as a crash at its call site (see
expect, require, the lookahead reads of parse_statement and parse_expr,
expr_is_valid_lvalue, and the Primary case of postorderNode).  The
line_number default is 0, as in the source.
-/
structure Token where
  type : TokenType
  literal : String
  line_number : Nat := 0
deriving DecidableEq, Repr

/-- The AttributeError raised by every .token_type read on a Token
(parser.py lines 299, 302-303, 369, 396, 398, 447 and
semantic_analyzer.py lines 72, 75): Token objects only carry .type. -/
def tokenTypeAttrCrashMsg : String :=
  "AttributeError: Token object has no attribute token_type"

/-- TokenizerException from tokenizer.py (lines 76-80): carries a message
and a line number; instances are accumulated in Tokenizer.errors. -/
structure TokenizerException where
  message : String
  line_number : Nat
deriving DecidableEq, Repr

/-- The OPERATORS table of tokenizer.py (lines 35-46), single-character
entries.  Returns the token type for a one-character operator string. -/
def operatorOf : Char → Option TokenType
  | '+' => some .PLUS
  | '-' => some .MINUS
  | '*' => some .STAR
  | '/' => some .SLASH
  | ':' => some .COLON
  | '=' => some .ASSIGN
  | '<' => some .LESS
  | '>' => some .GREATER
  | _ => none

/-- The two-character entries of OPERATORS: in Python, the string
two = peek() + peek(1) is looked up in OPERATORS, and only the keys
of length two can match a two-character string. -/
def twoCharOperator (c d : Char) : Option TokenType :=
  if c = '<' ∧ d = '=' then some .LESS_EQUAL
  else if c = '>' ∧ d = '=' then some .GREATER_EQUAL
  else none

/-- The STRUCTURES table of tokenizer.py (lines 47-52). -/
def structureOf : Char → Option TokenType
  | '(' => some .LEFT_PAREN
  | ')' => some .RIGHT_PAREN
  | '\n' => some .NEWLINE
  | ',' => some .COMMA
  | _ => none

/-- The KEYWORDS table of tokenizer.py (lines 53-60). -/
def keywordOf : String → Option TokenType
  | "fn" => some .FN
  | "if" => some .IF
  | "else" => some .ELSE
  | "while" => some .WHILE
  | "end" => some .END
  | "return" => some .RETURN
  | _ => none

/-- The TYPES set of tokenizer.py (lines 61-72). -/
def TYPES : List String :=
  ["void", "ptr", "byte", "short", "int", "long",
   "ubyte", "ushort", "uint", "ulong"]

/--
Tokenizer.read_ident (tokenizer.py lines 123-127).  The Python loop
condition is

  self.peek().isalnum() or self.peek() == UNDERSCORE and not self.reached_eof()

With a character under the cursor, reached_eof() is false and the
condition is isalnum-or-underscore.  When the cursor has reached the end
of the input, peek() returns None and None.isalnum() raises
AttributeError before the reached_eof() guard is consulted: modelled by
the error case.  Returns the consumed characters and the remaining input.
-/
def read_ident : List Char → Except String (List Char × List Char)
  | [] => .error "AttributeError: NoneType object has no attribute isalnum"
  | c :: rest =>
    if c.isAlphanum || c = '_' then
      match read_ident rest with
      | .error e => .error e
      | .ok (lit, rest2) => .ok (c :: lit, rest2)
    else
      .ok ([], c :: rest)

/--
Tokenizer.read_number (tokenizer.py lines 129-133).  Same shape as
read_ident: at end of input, None.isnumeric() raises AttributeError
before the reached_eof() guard applies.
-/
def read_number : List Char → Except String (List Char × List Char)
  | [] => .error "AttributeError: NoneType object has no attribute isnumeric"
  | c :: rest =>
    if c.isDigit then
      match read_number rest with
      | .error e => .error e
      | .ok (lit, rest2) => .ok (c :: lit, rest2)
    else
      .ok ([], c :: rest)

/--
Tokenizer.consume_comment (tokenizer.py lines 135-137): consumes
characters while the current one is not a newline and the end of input
has not been reached (here the eof check short-circuits safely because
None is compared with the newline character, not dereferenced).
Returns (consumed characters, remaining input).
-/
def consume_comment : List Char → (List Char × List Char)
  | [] => ([], [])
  | c :: rest =>
    if c = '\n' then ([], c :: rest)
    else
      let p := consume_comment rest
      (c :: p.1, p.2)

/--
Tokenizer.read_operator (tokenizer.py lines 139-147).  Python first
builds two = peek() + (peek(1) or EMPTY).  peek(1) only returns None when
reached_eof() is true, which is impossible while a current character
exists, so with exactly one character remaining, source access at
idx + 1 raises IndexError.  Otherwise the two-character string is
looked up first, then the single character.  Returns the token type,
consumed characters, and remaining input.
-/
def read_operator : List Char → Except String (TokenType × List Char × List Char)
  | [] => .error "unreachable: read_operator on empty input"
  | [_] => .error "IndexError: string index out of range"
  | c :: d :: rest =>
    match twoCharOperator c d with
    | some tt => .ok (tt, [c, d], rest)
    | none =>
      match operatorOf c with
      | some tt => .ok (tt, [c], d :: rest)
      | none => .error "unreachable: dispatch guaranteed membership in OPERATORS"

/-- Count of newline characters in a character list. -/
def countNl (l : List Char) : Nat := l.count '\n'

/--
The main scan loop of Tokenizer.tokenize (tokenizer.py lines 160-178),
dispatching on the current character in the same priority order as the
source: whitespace, identifier start, digit, comment, operator,
structure (where a newline increments the line counter before the token
is built, so the newline token itself carries the incremented number),
and otherwise an invalid-character diagnostic with single-character
skip.  The parameter done is the already-consumed prefix of the source
(the ghost counterpart of the cursor self.idx); each produced token is
paired with countNl done, the number of newline characters strictly
before its first character.  Errors from the read helpers abort the
scan, exactly as an uncaught Python exception would.  The fuel
parameter makes the recursion structural; every branch consumes at
least one character, so a fuel of one more than the length of the
remaining input never runs out (tokenizer-level callers pass exactly
that), and the out-of-fuel error is unreachable from them.
-/
def scan (fuel : Nat) (done rest : List Char) (line : Nat) :
    Except String (List (Token × Nat) × List TokenizerException) :=
  match fuel with
  | 0 => .error "out of fuel"
  | fuel + 1 =>
    match rest with
    | [] => .ok ([], [])
    | c :: rs =>
      if c = ' ' ∨ c = '\t' then
        scan fuel (done ++ [c]) rs line
      else if c.isAlpha ∨ c = '_' then
        match read_ident (c :: rs) with
        | .error e => .error e
        | .ok (lit, rest2) =>
          match scan fuel (done ++ lit) rest2 line with
          | .error e => .error e
          | .ok (ts, es) => .ok ((⟨.IDENT, String.mk lit, line⟩, countNl done) :: ts, es)
      else if c.isDigit then
        match read_number (c :: rs) with
        | .error e => .error e
        | .ok (lit, rest2) =>
          match scan fuel (done ++ lit) rest2 line with
          | .error e => .error e
          | .ok (ts, es) => .ok ((⟨.NUMBER, String.mk lit, line⟩, countNl done) :: ts, es)
      else if c = ';' then
        scan fuel (done ++ (consume_comment (c :: rs)).1) (consume_comment (c :: rs)).2 line
      else if (operatorOf c).isSome then
        match read_operator (c :: rs) with
        | .error e => .error e
        | .ok (tt, lit, rest2) =>
          match scan fuel (done ++ lit) rest2 line with
          | .error e => .error e
          | .ok (ts, es) => .ok ((⟨tt, String.mk lit, line⟩, countNl done) :: ts, es)
      else if hSt : (structureOf c).isSome then
        match scan fuel (done ++ [c]) rs (if c = '\n' then line + 1 else line) with
        | .error e => .error e
        | .ok (ts, es) =>
          .ok ((⟨(structureOf c).get hSt, String.mk [c],
                 if c = '\n' then line + 1 else line⟩, countNl done) :: ts, es)
      else
        match scan fuel (done ++ [c]) rs line with
        | .error e => .error e
        | .ok (ts, es) => .ok (ts, ⟨"invalid character: " ++ String.mk [c], line⟩ :: es)

/--
Tokenizer.resolve_keywords (tokenizer.py lines 153-158) applied to one
token: an exact literal match against KEYWORDS rewrites the kind to the
keyword kind, otherwise an exact match against TYPES rewrites it to
TYPE, otherwise the token is unchanged.
-/
def resolve_keyword (t : Token) : Token :=
  match keywordOf t.literal with
  | some k => { t with type := k }
  | none => if t.literal ∈ TYPES then { t with type := .TYPE } else t

/--
Tokenizer.tokenize with ghost positions: the scan starting from an empty
consumed prefix at line 1, followed by the keyword-resolution pass.
Each token is paired with the count of newline characters strictly
before its first source character.
-/
def tokenizePos (source : String) :
    Except String (List (Token × Nat) × List TokenizerException) :=
  (scan (source.data.length + 1) [] source.data 1).map
    (fun p => (p.1.map (fun tk => (resolve_keyword tk.1, tk.2)), p.2))

/--
Tokenizer.tokenize (tokenizer.py lines 160-181): scan, resolve keywords,
then append the single EOF sentinel (whose line number is the default 0).
An uncaught exception from the scan aborts tokenization with no result.
-/
def tokenize (source : String) : Except String (List Token × List TokenizerException) :=
  (tokenizePos source).map (fun p => (p.1.map Prod.fst ++ [⟨.EOF, "", 0⟩], p.2))

/--
The Type class of parser.py (lines 48-87): a name, a size in bytes, and
a signedness flag (default True).  Named Ty here because Type is a Lean
keyword.  Note that Ty has fields name, size and signed only; there is
no attribute named literal (semantic_analyzer.py line 112 nevertheless
reads node.return_type.literal, which raises AttributeError: see the
FunctionDefinition case of postorderNode below).
-/
structure Ty where
  name : String
  size : Nat
  signed : Bool := true
deriving DecidableEq, Repr

/-- Type.size_map from parser.py (lines 49-60). -/
def size_map : String → Option Nat
  | "void" => some 0
  | "ptr" => some 4
  | "byte" => some 1
  | "short" => some 2
  | "int" => some 4
  | "long" => some 8
  | "ubyte" => some 1
  | "ushort" => some 2
  | "uint" => some 4
  | "ulong" => some 8
  | _ => none

/--
Type.literal_is_signed from parser.py (lines 78-80), translated exactly:

  return literal in (ubyte, ushort, uint, ulong)

so the function returns true precisely for the four u-prefixed names.
-/
def literal_is_signed (literal : String) : Bool :=
  literal ∈ ["ubyte", "ushort", "uint", "ulong"]

/--
Type.literal_to_type from parser.py (lines 70-76): builds
Type(literal, size_map[literal], literal_is_signed(literal)).  A literal
outside size_map raises KeyError in Python, modelled by none.
-/
def literal_to_type (literal : String) : Option Ty :=
  (size_map literal).map (fun sz => ⟨literal, sz, literal_is_signed literal⟩)

/-- Type.token_to_type from parser.py (lines 66-68). -/
def token_to_type (t : Token) : Option Ty :=
  literal_to_type t.literal

/--
The AST node classes of parser.py (lines 94-275), one constructor per
class, mirroring the dynamically-typed source where the semantic
analyzer dispatches on isinstance.  Primary wraps a single token (its
mutable dtype annotation, written only by the analyzer and read by no
code under verification, is not modelled).  FunctionCall stores its
callee as the token of the Primary produced by parse_primary, and its
args exactly as parser.py line 439-440 builds them: a list of raw
consumed tokens, not of expression nodes.  Node line numbers are the
derived values computed by each constructor from its children and are
recovered by the lineOf functions below instead of being stored.
-/
inductive Node where
  | prim (token : Token)
  | unary (op : Token) (operand : Node)
  | bin (left : Node) (op : Token) (right : Node)
  | call (name : Token) (args : List Token)
  | defn (ident : Token) (rhs : Node) (type : Ty)
  | assign (lhs : Node) (rhs : Node)
  | ifS (condition : Node) (true_body : Node) (false_body : Option Node)
  | whileS (condition : Node) (body : Node)
  | ret (expr : Node)
  | body (statements : List Node)
  | param (ident : Token) (type : Ty)
  | fnDef (name : Token) (params : List Node) (return_type : Ty) (bodyN : Node)
  | program (contents : List Node)

/-- ParserException data from parser.py (lines 42-46): message and line. -/
structure ParserException where
  message : String
  line_number : Nat
deriving DecidableEq, Repr

/--
Outcome of running a piece of parser code: a normal value, a raised
ParserException (catchable: parser.py catches exactly this class), or an
uncaught Python runtime error such as AttributeError or IndexError,
which no except clause in the sources handles.
-/
inductive POut (α : Type) where
  | ok (a : α)
  | exn (e : ParserException)
  | crash (msg : String)

/-- Parser state from parser.py (lines 277-282): the token list, the
cursor self.idx, and the accumulated self.errors list. -/
structure PSt where
  tokens : List Token
  idx : Nat
  errors : List ParserException
deriving Repr

/-- The parser computation monad: explicit state passing plus the
three-way outcome. -/
def PM (α : Type) : Type := PSt → POut α × PSt

instance : Monad PM where
  pure a := fun s => (.ok a, s)
  bind m f := fun s =>
    match m s with
    | (.ok a, s2) => f a s2
    | (.exn e, s2) => (.exn e, s2)
    | (.crash msg, s2) => (.crash msg, s2)

/-- Raise a ParserException, as the source raise statements do. -/
def throwExn {α : Type} (msg : String) (line : Nat) : PM α :=
  fun s => (.exn ⟨msg, line⟩, s)

/-- An uncaught Python runtime error. -/
def crashPy {α : Type} (msg : String) : PM α :=
  fun s => (.crash msg, s)

/--
The try/except ParserException pattern of parse_program and parse_body:
run the action; on a raised ParserException run the handler from the
state at the raise point; a crash propagates unhandled.
-/
def attempt {α : Type} (m : PM α) (handler : ParserException → PM α) : PM α :=
  fun s =>
    match m s with
    | (.exn e, s2) => handler e s2
    | other => other

/-- Append a caught exception to self.errors. -/
def appendError (e : ParserException) : PM Unit :=
  fun s => (.ok (), { s with errors := s.errors ++ [e] })

/--
Parser.peek (parser.py lines 284-287) with lookahead: if self.idx is
past the end, Python returns None; otherwise self.tokens[self.idx + ahead]
is read, which raises IndexError when idx + ahead is out of range (the
bounds check only involves idx).
-/
def peekAhead (ahead : Nat) : PM (Option Token) :=
  fun s =>
    if s.idx ≥ s.tokens.length then (.ok none, s)
    else
      match s.tokens[s.idx + ahead]? with
      | some t => (.ok (some t), s)
      | none => (.crash "IndexError: list index out of range", s)

/-- Parser.peek with the default ahead = 0 (never an IndexError). -/
def peekCur : PM (Option Token) := peekAhead 0

/-- Parser.consume (parser.py lines 289-294). -/
def consume : PM (Option Token) :=
  fun s =>
    if s.idx ≥ s.tokens.length then (.ok none, s)
    else
      match s.tokens[s.idx]? with
      | some t => (.ok (some t), { s with idx := s.idx + 1 })
      | none => (.crash "IndexError: list index out of range", s)

/--
Parser.expect (parser.py lines 296-299):

  if not self.peek(): return False
  return self.peek().token_type in types

When peek() is None the result is False; otherwise the read of
.token_type on the peeked Token raises AttributeError (Token stores the
kind in .type), so expect crashes on every call that sees a token.
Since the token list always ends in the EOF sentinel and the cursor
starts at 0, the very first expect of a parse crashes.  The types
argument is kept for the call shape of the source.
-/
def expect (_types : List TokenType) : PM Bool := do
  let t? ← peekCur
  match t? with
  | none => pure false
  | some _ => crashPy tokenTypeAttrCrashMsg

/--
Parser.require (parser.py lines 301-304): the condition
self.peek().token_type != type reads .token_type, raising AttributeError
whether peek() returned a Token (no such attribute) or None; the
mismatch exception and the consume of the matched token below that line
are unreachable.
-/
def require (_ty : TokenType) : PM Token := do
  let t? ← peekCur
  match t? with
  | none => crashPy "AttributeError: NoneType object has no attribute token_type"
  | some _ => crashPy tokenTypeAttrCrashMsg

/-- The line number of the current token, peek().line_number; a None
peek would crash in Python. -/
def peekLine : PM Nat := do
  let t? ← peekCur
  match t? with
  | none => crashPy "AttributeError: NoneType object has no attribute line_number"
  | some t => pure t.line_number

/--
The membership test of Parser.recover (parser.py line 312):

  if self.consume() in (TokenType.NEWLINE, TokenType.END, TokenType.ELSE)

The value returned by consume() is a Token object (or None); comparing
it with TokenType enum members uses default identity equality, so the
test is False for every token.  The consumed token and the member list
are taken as arguments to keep the call shape of the source.
-/
def tokenInTokenTypes (_t : Option Token) (_types : List TokenType) : Bool :=
  false

/-- FIRST_EXPR from parser.py (lines 28-34). -/
def FIRST_EXPR : List TokenType :=
  [.IDENT, .NUMBER, .LEFT_PAREN, .STAR, .MINUS]

/-- FIRST_BODY from parser.py (lines 35-40). -/
def FIRST_BODY : List TokenType :=
  FIRST_EXPR ++ [.IF, .WHILE, .RETURN, .NEWLINE]

/--
Parser.expr_is_valid_lvalue (parser.py lines 395-400): for a Primary it
reads expr.token.token_type and for a UnaryExpr it reads
expr.op.token_type, both AttributeError on real Tokens (which carry
.type); any other node falls through both isinstance tests to False
without touching a token.
-/
def expr_is_valid_lvalue : Node → Except String Bool
  | .prim _ => .error tokenTypeAttrCrashMsg
  | .unary _ _ => .error tokenTypeAttrCrashMsg
  | _ => .ok false

/-- Message of the AttributeError raised when parse_unary evaluates
TokenType.AMPERSAND (parser.py line 481), a member the enum does not
define. -/
def ampersandCrashMsg : String :=
  "AttributeError: AMPERSAND is not a member of TokenType"

/-- Message of the AttributeError raised when Type.literal is read
(semantic_analyzer.py line 112): Ty has no such attribute. -/
def tyLiteralCrashMsg : String :=
  "AttributeError: Type object has no attribute literal"

mutual

/--
Parser.recover (parser.py lines 310-313): while not at EOF, consume a
token; the membership test against the TokenType tuple is the
always-false comparison tokenInTokenTypes, so synchronization never
stops early and the loop discards every token up to EOF.
-/
def recover (fuel : Nat) : PM Unit :=
  match fuel with
  | 0 => crashPy "out of fuel"
  | fuel + 1 => do
    let atEof ← expect [.EOF]
    if atEof then pure ()
    else do
      let c ← consume
      if tokenInTokenTypes c [.NEWLINE, .END, .ELSE] then pure ()
      else recover fuel

/-- The loop of Parser.parse_program (parser.py lines 315-327), with the
accumulated contents list. -/
def parse_program_go (fuel : Nat) (acc : List Node) : PM Node :=
  match fuel with
  | 0 => crashPy "out of fuel"
  | fuel + 1 => do
    let atEof ← expect [.EOF]
    if atEof then pure (.program acc)
    else do
      let acc2 ← attempt
        (do
          let nl ← expect [.NEWLINE]
          if nl then do
            let _ ← consume
            pure acc
          else do
            let isFn ← expect [.FN]
            if isFn then do
              let f ← parse_function fuel
              pure (acc ++ [f])
            else do
              let st ← parse_statement fuel
              pure (acc ++ [st]))
        (fun e => do
          appendError e
          pure acc)
      parse_program_go fuel acc2

/-- Parser.parse_function (parser.py lines 329-340). -/
def parse_function (fuel : Nat) : PM Node :=
  match fuel with
  | 0 => crashPy "out of fuel"
  | fuel + 1 => do
    let _ ← require .FN
    let nameN ← parse_primary fuel (some .IDENT)
    let name ← asPrimaryToken nameN
    let _ ← require .LEFT_PAREN
    let params ← parse_params_go fuel []
    let _ ← require .RIGHT_PAREN
    let _ ← require .COLON
    let tyTok ← require .TYPE
    let return_type ← tokenToTypeM tyTok
    let _ ← require .NEWLINE
    let bodyN ← parse_body_go fuel []
    let _ ← require .END
    pure (.fnDef name params return_type bodyN)

/-- The loop of Parser.parse_params (parser.py lines 342-351): while the
current token is an identifier, read ident : type, then require a comma
unless the next token is RIGHT_PAREN. -/
def parse_params_go (fuel : Nat) (acc : List Node) : PM (List Node) :=
  match fuel with
  | 0 => crashPy "out of fuel"
  | fuel + 1 => do
    let isIdent ← expect [.IDENT]
    if ¬ isIdent then pure acc
    else do
      let identN ← parse_primary fuel (some .IDENT)
      let ident ← asPrimaryToken identN
      let _ ← require .COLON
      let tyTok ← require .TYPE
      let ty ← tokenToTypeM tyTok
      let acc2 := acc ++ [Node.param ident ty]
      let rp ← expect [.RIGHT_PAREN]
      if ¬ rp then do
        let _ ← require .COMMA
        parse_params_go fuel acc2
      else
        parse_params_go fuel acc2

/-- The loop of Parser.parse_body (parser.py lines 353-364): while the
current token can start a body item, skip newlines, otherwise parse one
statement; a caught ParserException is appended and followed by
recover(). -/
def parse_body_go (fuel : Nat) (acc : List Node) : PM Node :=
  match fuel with
  | 0 => crashPy "out of fuel"
  | fuel + 1 => do
    let inFirst ← expect FIRST_BODY
    if ¬ inFirst then pure (.body acc)
    else do
      let acc2 ← attempt
        (do
          let nl ← expect [.NEWLINE]
          if nl then do
            let _ ← consume
            pure acc
          else do
            let st ← parse_statement fuel
            pure (acc ++ [st]))
        (fun e => do
          appendError e
          recover fuel
          pure acc)
      parse_body_go fuel acc2

/-- Parser.parse_statement (parser.py lines 366-385).  The dispatch set
of the first branch is exactly IDENT, NUMBER, STAR as in line 368 (note
that FIRST_BODY additionally admits LEFT_PAREN, MINUS and the keyword
starters).  When no branch applies, recover() runs and then
ParserException (expected a statement) is raised at the line of the
token now under the cursor.  In practice every expect call crashes at
its .token_type read, so this function never proceeds past its first
dispatch test. -/
def parse_statement (fuel : Nat) : PM Node :=
  match fuel with
  | 0 => crashPy "out of fuel"
  | fuel + 1 => do
    let stmt? ← do
      let b1 ← expect [.IDENT, .NUMBER, .STAR]
      if b1 then do
        let t1? ← peekAhead 1
        match t1? with
        | none => crashPy "AttributeError: NoneType object has no attribute token_type"
        | some _ =>
          -- self.peek(1).token_type (parser.py:369) reads the missing
          -- attribute: AttributeError before the COLON comparison.
          crashPy tokenTypeAttrCrashMsg
      else do
        let bIf ← expect [.IF]
        if bIf then do
          let st ← parse_if_statement fuel
          pure (some st)
        else do
          let bWh ← expect [.WHILE]
          if bWh then do
            let st ← parse_while_statement fuel
            pure (some st)
          else do
            let bRet ← expect [.RETURN]
            if bRet then do
              let st ← parse_return_statement fuel
              pure (some st)
            else
              pure none
    match stmt? with
    | none => do
      recover fuel
      let ln ← peekLine
      throwExn "expected a statement" ln
    | some st => do
      let _ ← require .NEWLINE
      pure st

/-- Parser.parse_while_statement (parser.py lines 387-393). -/
def parse_while_statement (fuel : Nat) : PM Node :=
  match fuel with
  | 0 => crashPy "out of fuel"
  | fuel + 1 => do
    let _ ← require .WHILE
    let condition ← parse_expr fuel
    let _ ← require .NEWLINE
    let bodyN ← parse_body_go fuel []
    let _ ← require .END
    pure (.whileS condition bodyN)

/-- Parser.parse_if_statement (parser.py lines 402-413). -/
def parse_if_statement (fuel : Nat) : PM Node :=
  match fuel with
  | 0 => crashPy "out of fuel"
  | fuel + 1 => do
    let _ ← require .IF
    let condition ← parse_expr fuel
    let _ ← require .NEWLINE
    let if_body ← parse_body_go fuel []
    let hasElse ← expect [.ELSE]
    let else_body ← if hasElse then do
        let _ ← consume
        let _ ← require .NEWLINE
        let b ← parse_body_go fuel []
        pure (some b)
      else
        pure (none : Option Node)
    let _ ← require .END
    pure (.ifS condition if_body else_body)

/-- Parser.parse_return_statement (parser.py lines 415-417). -/
def parse_return_statement (fuel : Nat) : PM Node :=
  match fuel with
  | 0 => crashPy "out of fuel"
  | fuel + 1 => do
    let _ ← require .RETURN
    let e ← parse_expr fuel
    pure (.ret e)

/-- Parser.parse_assignment (parser.py lines 419-424). -/
def parse_assignment (fuel : Nat) (lhs : Node) : PM Node :=
  match fuel with
  | 0 => crashPy "out of fuel"
  | fuel + 1 => do
    match expr_is_valid_lvalue lhs with
    | .error msg => crashPy msg
    | .ok valid =>
      if ¬ valid then do
        let ln ← peekLine
        throwExn "invalid lvalue" ln
      else do
        let _ ← require .ASSIGN
        let rhs ← parse_expr fuel
        pure (.assign lhs rhs)

/-- Parser.parse_definition (parser.py lines 426-432). -/
def parse_definition (fuel : Nat) : PM Node :=
  match fuel with
  | 0 => crashPy "out of fuel"
  | fuel + 1 => do
    let nameN ← parse_primary fuel (some .IDENT)
    let name ← asPrimaryToken nameN
    let _ ← require .COLON
    let tyTok ← require .TYPE
    let ty ← tokenToTypeM tyTok
    let _ ← require .ASSIGN
    let rhs ← parse_expr fuel
    pure (.defn name rhs ty)

/-- Parser.parse_function_call (parser.py lines 434-444): the callee is
parsed with parse_primary(IDENT); each argument is one consumed raw
token from FIRST_EXPR, with a comma required unless the next token is
RIGHT_PAREN. -/
def parse_function_call (fuel : Nat) : PM Node :=
  match fuel with
  | 0 => crashPy "out of fuel"
  | fuel + 1 => do
    let nameN ← parse_primary fuel (some .IDENT)
    let name ← asPrimaryToken nameN
    let _ ← require .LEFT_PAREN
    let args ← parse_call_args_go fuel []
    let _ ← require .RIGHT_PAREN
    pure (.call name args)

/-- The argument loop of Parser.parse_function_call (lines 438-442):
ident = self.consume(); args.append(ident). -/
def parse_call_args_go (fuel : Nat) (acc : List Token) : PM (List Token) :=
  match fuel with
  | 0 => crashPy "out of fuel"
  | fuel + 1 => do
    let inFirst ← expect FIRST_EXPR
    if ¬ inFirst then pure acc
    else do
      let c? ← consume
      match c? with
      | none => crashPy "unreachable: consume after successful expect"
      | some tok => do
        let acc2 := acc ++ [tok]
        let rp ← expect [.RIGHT_PAREN]
        if ¬ rp then do
          let _ ← require .COMMA
          parse_call_args_go fuel acc2
        else
          parse_call_args_go fuel acc2

/-- Parser.parse_expr (parser.py lines 446-449). -/
def parse_expr (fuel : Nat) : PM Node :=
  match fuel with
  | 0 => crashPy "out of fuel"
  | fuel + 1 => do
    let isIdent ← expect [.IDENT]
    if isIdent then do
      let t1? ← peekAhead 1
      match t1? with
      | none => crashPy "AttributeError: NoneType object has no attribute token_type"
      | some _ =>
        -- self.peek(1).token_type (parser.py:447) reads the missing
        -- attribute: AttributeError before the LEFT_PAREN comparison.
        crashPy tokenTypeAttrCrashMsg
    else
      parse_comparison fuel

/-- Parser.parse_comparison (parser.py lines 451-462). -/
def parse_comparison (fuel : Nat) : PM Node :=
  match fuel with
  | 0 => crashPy "out of fuel"
  | fuel + 1 => do
    let left ← parse_addition fuel
    parse_comparison_go fuel left

/-- The while-loop of parse_comparison: while the current token is a
comparison operator, consume it and fold a BinExpr with the next
addition-level operand. -/
def parse_comparison_go (fuel : Nat) (left : Node) : PM Node :=
  match fuel with
  | 0 => crashPy "out of fuel"
  | fuel + 1 => do
    let hasOp ← expect [.LESS, .GREATER, .LESS_EQUAL, .GREATER_EQUAL]
    if ¬ hasOp then pure left
    else do
      let op? ← consume
      match op? with
      | none => crashPy "unreachable: consume after successful expect"
      | some op => do
        let right ← parse_addition fuel
        parse_comparison_go fuel (.bin left op right)

/-- Parser.parse_addition (parser.py lines 464-470). -/
def parse_addition (fuel : Nat) : PM Node :=
  match fuel with
  | 0 => crashPy "out of fuel"
  | fuel + 1 => do
    let left ← parse_factor fuel
    parse_addition_go fuel left

/-- The while-loop of parse_addition. -/
def parse_addition_go (fuel : Nat) (left : Node) : PM Node :=
  match fuel with
  | 0 => crashPy "out of fuel"
  | fuel + 1 => do
    let hasOp ← expect [.PLUS, .MINUS]
    if ¬ hasOp then pure left
    else do
      let op? ← consume
      match op? with
      | none => crashPy "unreachable: consume after successful expect"
      | some op => do
        let right ← parse_factor fuel
        parse_addition_go fuel (.bin left op right)

/-- Parser.parse_factor (parser.py lines 472-478). -/
def parse_factor (fuel : Nat) : PM Node :=
  match fuel with
  | 0 => crashPy "out of fuel"
  | fuel + 1 => do
    let left ← parse_unary fuel
    parse_factor_go fuel left

/-- The while-loop of parse_factor. -/
def parse_factor_go (fuel : Nat) (left : Node) : PM Node :=
  match fuel with
  | 0 => crashPy "out of fuel"
  | fuel + 1 => do
    let hasOp ← expect [.STAR, .SLASH]
    if ¬ hasOp then pure left
    else do
      let op? ← consume
      match op? with
      | none => crashPy "unreachable: consume after successful expect"
      | some op => do
        let right ← parse_unary fuel
        parse_factor_go fuel (.bin left op right)

/--
Parser.parse_unary (parser.py lines 480-485).  The first statement is

  if self.expect(TokenType.STAR, TokenType.MINUS, TokenType.AMPERSAND):

Python evaluates the arguments before the call, and TokenType (see the
enum above, faithful to tokenizer.py lines 3-32) defines no member
AMPERSAND, so this line raises AttributeError on every invocation,
before expect can run.  The remainder of the source function is
unreachable.
-/
def parse_unary (fuel : Nat) : PM Node :=
  match fuel with
  | 0 => crashPy "out of fuel"
  | _ + 1 => crashPy ampersandCrashMsg

/-- Parser.parse_primary (parser.py lines 487-498).  With a required
kind, a mismatch raises via require; then an identifier or number token
becomes a Primary, a LEFT_PAREN introduces a parenthesized expression,
and anything else raises (expected primary expression). -/
def parse_primary (fuel : Nat) (ty? : Option TokenType) : PM Node :=
  match fuel with
  | 0 => crashPy "out of fuel"
  | fuel + 1 => do
    match ty? with
    | some ty => do
      let haveTy ← expect [ty]
      if ¬ haveTy then do
        let _ ← require ty
        pure ()
      else pure ()
    | none => pure ()
    let isPn ← expect [.IDENT, .NUMBER]
    if isPn then do
      let c? ← consume
      match c? with
      | none => crashPy "unreachable: consume after successful expect"
      | some t => pure (.prim t)
    else do
      let isLp ← expect [.LEFT_PAREN]
      if isLp then do
        let _ ← consume
        let e ← parse_expr fuel
        let _ ← require .RIGHT_PAREN
        pure e
      else do
        let ln ← peekLine
        throwExn "expected primary expression" ln

/-- Extract the token of the Primary node returned by
parse_primary(IDENT).  The sources annotate these positions with the
Primary class; parse_primary with a required IDENT kind can only return
a Primary, so the other branch is unreachable. -/
def asPrimaryToken (n : Node) : PM Token :=
  match n with
  | .prim t => pure t
  | _ => crashPy "unreachable: parse_primary with required IDENT returned a non-Primary"

/-- Type.token_to_type at a parser call site: a KeyError from size_map
would be an uncaught crash. -/
def tokenToTypeM (t : Token) : PM Ty :=
  match token_to_type t with
  | some ty => pure ty
  | none => crashPy "KeyError in Type.size_map"

end

/-- Parser.parse_program (parser.py lines 315-327), starting from an
empty contents list. -/
def parse_program (fuel : Nat) : PM Node :=
  parse_program_go fuel []

/-- Parser.parse_body (parser.py lines 353-364), starting from an empty
statement list. -/
def parse_body (fuel : Nat) : PM Node :=
  parse_body_go fuel []

/-- Run the parser as test.py does: Parser(tokens, filename) then
parse_program(), starting at index 0 with no recorded errors. -/
def runParser (fuel : Nat) (tokens : List Token) : POut Node × PSt :=
  parse_program fuel ⟨tokens, 0, []⟩

/-- Tokenize then parse; none when tokenization raised. -/
def tokenizeThenParse (fuel : Nat) (source : String) : Option (POut Node × PSt) :=
  (tokenize source).toOption.map (fun p => runParser fuel p.1)

/-- The syntax diagnostics of a tokenize-then-parse run. -/
def parseErrorsOf (fuel : Nat) (source : String) : Option (List ParserException) :=
  (tokenizeThenParse fuel source).map (fun r => r.2.errors)

/-- The parse outcome of a tokenize-then-parse run. -/
def parseOutcomeOf (fuel : Nat) (source : String) : Option (POut Node) :=
  (tokenizeThenParse fuel source).map (fun r => r.1)

/-- The lexical diagnostics of a tokenize run. -/
def lexErrorsOf (source : String) : Option (List TokenizerException) :=
  (tokenize source).toOption.map (fun p => p.2)

/-- SemanticError from semantic_analyzer.py (lines 17-20): a message and
a line number.  As the source comment notes, it is not an exception. -/
structure SemanticError where
  message : String
  line_number : Nat
deriving DecidableEq, Repr

/-- A single apostrophe, used by the f-strings of semantic_analyzer.py. -/
def sq : String := String.mk [Char.ofNat 39]

/-- The message of SemanticAnalyzer.access on a failed lookup
(semantic_analyzer.py line 47). -/
def useBeforeDefMsg (name : String) : String :=
  sq ++ name ++ sq ++ " used before definition"

/-- The message of SemanticAnalyzer.define on a duplicate name
(semantic_analyzer.py line 52). -/
def redefinitionMsg (name : String) : String :=
  "redefinition of " ++ sq ++ name ++ sq

/--
SemanticAnalyzer state (semantic_analyzer.py lines 22-28): the scope
stack, the reports list, and the per-name deduplication set reported.
Python keeps the innermost scope at the end of the list and iterates
reversed(scope_stack) for lookup; the embedding keeps the innermost
scope at the head, so lookup scans front to back and push/pop act on the
head.  Each scope is an association list standing for a dict whose keys
are unique.  The reported set is a duplicate-free list.  The err field
records an uncaught Python exception: once set, the traversal is over
and no later effect happens (the exception propagates out of analyze),
while the state mutated so far is retained, as on a Python object whose
method raised.
-/
structure SemState where
  scope_stack : List (List (String × Ty))
  reports : List SemanticError
  reported : List String
  err : Option String
deriving DecidableEq, Repr

/-- The analyzer state built by SemanticAnalyzer.__init__: one empty
global scope, no reports, nothing reported, no pending exception. -/
def initSemState : SemState :=
  ⟨[[]], [], [], none⟩

/--
SemanticAnalyzer.report (semantic_analyzer.py lines 34-38): skip when
the name was already reported, otherwise append the error and add the
name to the deduplication set.
-/
def report (name : String) (message : String) (line_number : Nat) (s : SemState) : SemState :=
  if s.err.isSome then s
  else if name ∈ s.reported then s
  else { s with
    reports := s.reports ++ [⟨message, line_number⟩],
    reported := s.reported ++ [name] }

/-- Innermost-first lookup over the scope stack, as the reversed
iteration of SemanticAnalyzer.access does. -/
def lookupScopes (stack : List (List (String × Ty))) (name : String) : Option Ty :=
  match stack with
  | [] => none
  | scope :: rest =>
    match scope.lookup name with
    | some ty => some ty
    | none => lookupScopes rest name

/--
SemanticAnalyzer.access (semantic_analyzer.py lines 40-47) for a node
with the given name and line: on a hit the node dtype annotation is
written (not modelled) and the state is unchanged; on a miss the
used-before-definition report is recorded under the name.
-/
def access (name : String) (line : Nat) (s : SemState) : SemState :=
  if s.err.isSome then s
  else
    match lookupScopes s.scope_stack name with
    | some _ => s
    | none => report name (useBeforeDefMsg name) line s

/--
SemanticAnalyzer.define (semantic_analyzer.py lines 49-55): if the name
is already in the innermost scope, record the redefinition report and
stop; otherwise insert the binding into the innermost scope (the node
type annotation write on line 55 is not modelled).  The source indexes
scope_stack[-1]; the stack is never empty, and the empty case is
translated as the IndexError it would raise.
-/
def define (name : String) (line : Nat) (ty : Ty) (s : SemState) : SemState :=
  if s.err.isSome then s
  else
    match s.scope_stack with
    | [] => { s with err := some "IndexError: list index out of range" }
    | top :: rest =>
      if (top.lookup name).isSome then
        report name (redefinitionMsg name) line s
      else
        { s with scope_stack := ((name, ty) :: top) :: rest }

/-- SemanticAnalyzer.new_scope (semantic_analyzer.py lines 57-58). -/
def new_scope (s : SemState) : SemState :=
  if s.err.isSome then s
  else { s with scope_stack := [] :: s.scope_stack }

/-- SemanticAnalyzer.end_scope (semantic_analyzer.py lines 60-61). -/
def end_scope (s : SemState) : SemState :=
  if s.err.isSome then s
  else
    match s.scope_stack with
    | [] => { s with err := some "IndexError: pop from empty list" }
    | _ :: rest => { s with scope_stack := rest }

/-- Record an uncaught Python exception raised during the traversal. -/
def setSemErr (msg : String) (s : SemState) : SemState :=
  if s.err.isSome then s
  else { s with err := some msg }

/-- The argument iteration of the FunctionCall case of postorder: each
argument is a raw Token (see parse_function_call), matching no
isinstance branch of postorder, so each iteration leaves the state
unchanged. -/
def postorderTokenArgs (args : List Token) (s : SemState) : SemState :=
  args.foldl (fun acc _ => acc) s

mutual

/--
SemanticAnalyzer.postorder (semantic_analyzer.py lines 66-120), one case
per isinstance branch, in source order where it matters:

* Primary: line 72 tests node.token.token_type == TokenType.IDENT, a
  read of the attribute Token does not have (Token stores .type), so
  visiting any Primary raises AttributeError before the access or the
  number-dtype annotation can run; both are unreachable in the source.
* UnaryExpr and BinExpr recurse into their operand(s).
* FunctionCall: access on the node (get_name() returns the literal of
  the callee token, node.line its line), then recursion into each
  argument.  The arguments are raw Token objects (see
  parse_function_call), which match no isinstance branch of postorder,
  so the per-argument recursion has no effect; postorderTokenArgs
  iterates them and leaves the state unchanged accordingly.
* AssignmentStatement, DefinitionStatement, ReturnStatement, Body as in
  the source; a DefinitionStatement defines its identifier, with the
  node line taken from the identifier token.
* IfStatement and WhileStatement push a scope, visit condition and
  bodies, pop.
* Param: define with the declared parameter type.
* FunctionDefinition: the source line 112 is

    self.define(node, node.return_type.literal)

  and the argument node.return_type.literal is evaluated first; Type
  objects have attributes name, size and signed but no literal, so this
  raises AttributeError before define runs, before the new scope is
  pushed and before params or body are visited.
* Program: recursion into each top-level item.
-/
def postorderNode (n : Node) (s : SemState) : SemState :=
  match n with
  | .prim _ => setSemErr tokenTypeAttrCrashMsg s
  | .unary _ operand => postorderNode operand s
  | .bin left _ right => postorderNode right (postorderNode left s)
  | .call name args => postorderTokenArgs args (access name.literal name.line_number s)
  | .assign lhs rhs => postorderNode rhs (postorderNode lhs s)
  | .defn ident rhs ty => postorderNode rhs (define ident.literal ident.line_number ty s)
  | .ret e => postorderNode e s
  | .ifS condition true_body false_body =>
    let s1 := new_scope s
    let s2 := postorderNode condition s1
    let s3 := postorderNode true_body s2
    let s4 := match false_body with
      | some fb => postorderNode fb s3
      | none => s3
    end_scope s4
  | .whileS condition bodyN =>
    end_scope (postorderNode bodyN (postorderNode condition (new_scope s)))
  | .body statements => postorderList statements s
  | .param ident ty => define ident.literal ident.line_number ty s
  | .fnDef _ _ _ _ => setSemErr tyLiteralCrashMsg s
  | .program contents => postorderList contents s

/-- The statement/item iteration of the Body and Program cases. -/
def postorderList (l : List Node) (s : SemState) : SemState :=
  match l with
  | [] => s
  | n :: rest => postorderList rest (postorderNode n s)

end

/-- SemanticAnalyzer.analyze (semantic_analyzer.py lines 122-123) from a
fresh analyzer state. -/
def analyze (ast : Node) : SemState :=
  postorderNode ast initSemState

set_option maxHeartbeats 4000000

/-- The token sequence of the minimal program fn f(): int / return 1 /
end (with a terminating newline, without which tokenize itself raises
inside read_ident). -/
def C1toks : List Token :=
  [⟨.FN, "fn", 1⟩, ⟨.IDENT, "f", 1⟩, ⟨.LEFT_PAREN, "(", 1⟩, ⟨.RIGHT_PAREN, ")", 1⟩,
   ⟨.COLON, ":", 1⟩, ⟨.TYPE, "int", 1⟩, ⟨.NEWLINE, "\n", 2⟩,
   ⟨.RETURN, "return", 2⟩, ⟨.NUMBER, "1", 2⟩, ⟨.NEWLINE, "\n", 3⟩,
   ⟨.END, "end", 3⟩, ⟨.NEWLINE, "\n", 4⟩, ⟨.EOF, "", 0⟩]

/--
Claim C1.  The claim states that for the minimal program fn f(): int /
return 1 / end, tokenize-then-parse produces a Program with one
FunctionDefinition named f (no params, return type int, body of one
ReturnStatement) and empty diagnostics everywhere.  The code instead
crashes before parsing anything: parse_program begins with
expect(TokenType.EOF), which reads peek().token_type, an attribute
Token objects do not have (Token.__init__ stores the kind in .type), so
the parse raises AttributeError at cursor 0 with no Program and no
syntax diagnostic.  (A second independent defect sits behind it:
parse_unary references TokenType.AMPERSAND, a member the enum does not
define, so even with the attribute read repaired, any expression parse
would crash there.)  This theorem evaluates the pipeline at the failing
input: tokenization succeeds with no lexical diagnostic, and the parse
ends in the AttributeError crash at cursor 0.
-/
theorem C1_minimal_program_pipeline_crashes :
    tokenize "fn f(): int\nreturn 1\nend\n" = .ok (C1toks, []) ∧
    runParser 99 C1toks = (.crash tokenTypeAttrCrashMsg, ⟨C1toks, 0, []⟩) :=
  ⟨rfl, rfl⟩

/--
Claim C2.  The claim states that tokenize terminates without raising on
every finite input.  The code raises on any input ending inside an
identifier, a number, or an operator: read_ident calls isalnum() on the
None returned by peek() at end of input (the reached_eof() guard sits
after the short-circuiting or), read_number does the same with
isnumeric(), and read_operator reads source[idx + 1] for its
two-character lookahead, an IndexError when only one character remains.
This theorem evaluates tokenize at the three failing inputs.
-/
theorem C2_tokenize_raises_at_end_of_input :
    tokenize "a" = .error "AttributeError: NoneType object has no attribute isalnum" ∧
    tokenize "1" = .error "AttributeError: NoneType object has no attribute isnumeric" ∧
    tokenize "+" = .error "IndexError: string index out of range" :=
  ⟨rfl, rfl, rfl⟩

/-- The token sequence of the body x : 5 / y : int = 1. -/
def C3toks : List Token :=
  [⟨.IDENT, "x", 1⟩, ⟨.COLON, ":", 1⟩, ⟨.NUMBER, "5", 1⟩, ⟨.NEWLINE, "\n", 2⟩,
   ⟨.IDENT, "y", 2⟩, ⟨.COLON, ":", 2⟩, ⟨.TYPE, "int", 2⟩, ⟨.ASSIGN, "=", 2⟩,
   ⟨.NUMBER, "1", 2⟩, ⟨.NEWLINE, "\n", 3⟩, ⟨.EOF, "", 0⟩]

/--
Claim C3.  The claim states that synchronization after a parse error in
a body discards tokens only up to and including the next newline, end or
else token, so one malformed statement followed by N well-formed ones
yields one diagnostic and the N statements.  The code never gets that
far: the while-condition of parse_body is expect(*FIRST_BODY), whose
peek().token_type read raises AttributeError on the first token (Token
stores the kind in .type), so parsing the body aborts at cursor 0 with
zero diagnostics and zero statements instead of the claimed one
diagnostic and N statements.  (Behind that crash, recover() itself is
also broken: it compares the Token object returned by consume() against
TokenType enum members, a test that is always false, so even with the
attribute read repaired synchronization would discard every token to
EOF.)  This theorem evaluates parse_body on the tokens of the body
x : 5 (malformed: 5 is not a type) followed by the well-formed
statement y : int = 1 (N = 1).
-/
theorem C3_parse_body_crashes_before_recovery :
    tokenize "x : 5\ny : int = 1\n" = .ok (C3toks, []) ∧
    parse_body 99 ⟨C3toks, 0, []⟩
      = (.crash tokenTypeAttrCrashMsg, ⟨C3toks, 0, []⟩) :=
  ⟨rfl, rfl⟩

/--
Claim C4.  The claim states that the Type built from each name in the
fixed table has signed = true exactly when the name is not prefixed with
u.  The code has it inverted: literal_is_signed returns membership in
the set of the four u-prefixed names, so exactly ubyte, ushort, uint and
ulong come out signed and the six non-u names come out unsigned.  This
theorem evaluates the constructor over the whole table.
-/
theorem C4_signedness_inverted :
    literal_to_type "int" = some ⟨"int", 4, false⟩ ∧
    literal_to_type "ubyte" = some ⟨"ubyte", 1, true⟩ ∧
    TYPES.map (fun l => (l, (literal_to_type l).map (fun t => t.signed)))
      = [("void", some false), ("ptr", some false), ("byte", some false),
         ("short", some false), ("int", some false), ("long", some false),
         ("ubyte", some true), ("ushort", some true), ("uint", some true),
         ("ulong", some true)] := by
  refine ⟨rfl, rfl, ?_⟩
  decide

/--
Claim C6.  The claim states that parsing the single statement
(1 + 2) = 3 produces exactly one syntax diagnostic with message invalid
lvalue.  The code records no diagnostic at all: the first expect call
of parse_program reads peek().token_type, an attribute Token objects do
not have (the kind is stored in .type), so the parse raises
AttributeError at cursor 0 and the lvalue check in parse_assignment
(itself two further .token_type reads) is never reached.  Even with the
attribute reads repaired, parse_statement dispatches expression
statements only on a leading IDENT, NUMBER or STAR token — not
LEFT_PAREN, although FIRST_BODY and the grammar docstring admit it — so
this statement would still fail before any lvalue check.
-/
def C6toks : List Token :=
  [⟨.LEFT_PAREN, "(", 1⟩, ⟨.NUMBER, "1", 1⟩, ⟨.PLUS, "+", 1⟩, ⟨.NUMBER, "2", 1⟩,
   ⟨.RIGHT_PAREN, ")", 1⟩, ⟨.ASSIGN, "=", 1⟩, ⟨.NUMBER, "3", 1⟩,
   ⟨.NEWLINE, "\n", 2⟩, ⟨.EOF, "", 0⟩]

/--
Claim C6, settled at the tokens of (1 + 2) = 3 (see the comment above
C6toks): tokenization is clean, and the parse crashes with
AttributeError at cursor 0, recording zero syntax diagnostics — not the
single invalid lvalue diagnostic the claim asserts.
-/
theorem C6_paren_assignment_crashes :
    tokenize "(1 + 2) = 3\n" = .ok (C6toks, []) ∧
    runParser 99 C6toks
      = (.crash tokenTypeAttrCrashMsg, ⟨C6toks, 0, []⟩) :=
  ⟨rfl, rfl⟩

/--
Claim C8.  The claim states that for a FunctionDefinition the analyzer
defines the function name in the enclosing scope bound to the return
type, pushes a fresh scope for params and body, and pops it.  The code
instead evaluates node.return_type.literal as the binding argument;
Type objects have the attributes name, size and signed but no literal,
so an AttributeError is raised before anything is defined or any scope
is pushed.  This theorem evaluates the analyzer on the AST of
fn f(): int / end: the final state records the crash, with no binding
of f, no report, and the scope stack still the single empty global
scope.
-/
theorem C8_function_definition_analysis_crashes :
    analyze (.program [.fnDef ⟨.IDENT, "f", 1⟩ [] ⟨"int", 4, false⟩ (.body [])])
      = { scope_stack := [[]], reports := [], reported := [],
          err := some tyLiteralCrashMsg } :=
  rfl

/-- The tokens of fn f(a: int,): int / end, with the trailing comma. -/
def C10fnCommaToks : List Token :=
  [⟨.FN, "fn", 1⟩, ⟨.IDENT, "f", 1⟩, ⟨.LEFT_PAREN, "(", 1⟩, ⟨.IDENT, "a", 1⟩,
   ⟨.COLON, ":", 1⟩, ⟨.TYPE, "int", 1⟩, ⟨.COMMA, ",", 1⟩, ⟨.RIGHT_PAREN, ")", 1⟩,
   ⟨.COLON, ":", 1⟩, ⟨.TYPE, "int", 1⟩, ⟨.NEWLINE, "\n", 2⟩,
   ⟨.END, "end", 2⟩, ⟨.NEWLINE, "\n", 3⟩, ⟨.EOF, "", 0⟩]

/-- The tokens of fn f(a: int): int / end, without the trailing comma. -/
def C10fnToks : List Token :=
  [⟨.FN, "fn", 1⟩, ⟨.IDENT, "f", 1⟩, ⟨.LEFT_PAREN, "(", 1⟩, ⟨.IDENT, "a", 1⟩,
   ⟨.COLON, ":", 1⟩, ⟨.TYPE, "int", 1⟩, ⟨.RIGHT_PAREN, ")", 1⟩,
   ⟨.COLON, ":", 1⟩, ⟨.TYPE, "int", 1⟩, ⟨.NEWLINE, "\n", 2⟩,
   ⟨.END, "end", 2⟩, ⟨.NEWLINE, "\n", 3⟩, ⟨.EOF, "", 0⟩]

/-- The tokens of f(x,), with the trailing comma. -/
def C10callCommaToks : List Token :=
  [⟨.IDENT, "f", 1⟩, ⟨.LEFT_PAREN, "(", 1⟩, ⟨.IDENT, "x", 1⟩, ⟨.COMMA, ",", 1⟩,
   ⟨.RIGHT_PAREN, ")", 1⟩, ⟨.NEWLINE, "\n", 2⟩, ⟨.EOF, "", 0⟩]

/-- The tokens of f(x), without the trailing comma. -/
def C10callToks : List Token :=
  [⟨.IDENT, "f", 1⟩, ⟨.LEFT_PAREN, "(", 1⟩, ⟨.IDENT, "x", 1⟩,
   ⟨.RIGHT_PAREN, ")", 1⟩, ⟨.NEWLINE, "\n", 2⟩, ⟨.EOF, "", 0⟩]

/--
Claim C10.  The claim states that the parser accepts a trailing comma
before the closing parenthesis in parameter lists and in call argument
lists, so both concrete pairs parse the same with no diagnostic.  The
comma logic of parse_params and parse_function_call is written exactly
as the claim describes (a comma is required after an item only when the
next token is not RIGHT_PAREN), but the parser never reaches it: every
parse raises AttributeError at the first expect call of parse_program
(Token stores the kind in .type; the parser reads .token_type), so all
four programs crash at cursor 0 with no Program and no diagnostic, and
trailing-comma acceptance is never exhibited by the program.  This
theorem evaluates all four pipelines.
-/
theorem C10_trailing_comma_never_reached :
    tokenize "fn f(a: int,): int\nend\n" = .ok (C10fnCommaToks, []) ∧
    tokenize "fn f(a: int): int\nend\n" = .ok (C10fnToks, []) ∧
    runParser 99 C10fnCommaToks
      = (.crash tokenTypeAttrCrashMsg, ⟨C10fnCommaToks, 0, []⟩) ∧
    runParser 99 C10fnToks
      = (.crash tokenTypeAttrCrashMsg, ⟨C10fnToks, 0, []⟩) ∧
    tokenize "f(x,)\n" = .ok (C10callCommaToks, []) ∧
    tokenize "f(x)\n" = .ok (C10callToks, []) ∧
    runParser 99 C10callCommaToks
      = (.crash tokenTypeAttrCrashMsg, ⟨C10callCommaToks, 0, []⟩) ∧
    runParser 99 C10callToks
      = (.crash tokenTypeAttrCrashMsg, ⟨C10callToks, 0, []⟩) :=
  ⟨rfl, rfl, rfl, rfl, rfl, rfl, rfl, rfl⟩

/-- Whether a semantic diagnostic is one of the two messages the
analyzer builds from the given identifier name (the two report call
sites in access and define). -/
def mentions (name : String) (e : SemanticError) : Bool :=
  e.message == useBeforeDefMsg name || e.message == redefinitionMsg name

/-- How many diagnostics of a report list were built from the given
name. -/
def countMentions (name : String) (reports : List SemanticError) : Nat :=
  reports.countP (mentions name)

theorem useBeforeDefMsg_inj {a b : String}
    (h : useBeforeDefMsg a = useBeforeDefMsg b) : a = b := by
  have hd := congrArg String.data h
  simp only [useBeforeDefMsg, String.data_append, List.append_assoc] at hd
  have hsq : sq.data = [Char.ofNat 39] := rfl
  rw [hsq] at hd
  have h1 := List.append_cancel_left hd
  have h2 := List.append_cancel_right h1
  ext1
  exact h2

theorem redefinitionMsg_inj {a b : String}
    (h : redefinitionMsg a = redefinitionMsg b) : a = b := by
  have hd := congrArg String.data h
  simp only [redefinitionMsg, String.data_append, List.append_assoc] at hd
  have h1 := List.append_cancel_left hd
  have h2 := List.append_cancel_left h1
  have h3 := List.append_cancel_right h2
  ext1
  exact h3

theorem useBeforeDefMsg_ne_redefinitionMsg (a b : String) :
    useBeforeDefMsg a ≠ redefinitionMsg b := by
  intro h
  have hd := congrArg (fun s => s.data.head?) h
  have hsq : sq.data = [Char.ofNat 39] := rfl
  simp only [useBeforeDefMsg, redefinitionMsg, String.data_append, hsq,
    List.append_assoc, List.cons_append, List.nil_append,
    List.head?_cons, Option.some.injEq] at hd
  exact absurd hd (by decide)

/-- A diagnostic built from one name is never one of the messages built
from a different name. -/
theorem mentions_false_of_ne {name n : String} (hne : name ≠ n)
    (msg : String) (line : Nat)
    (hmsg : msg = useBeforeDefMsg n ∨ msg = redefinitionMsg n) :
    mentions name ⟨msg, line⟩ = false := by
  rcases hmsg with h | h <;> subst h <;>
    simp only [mentions, Bool.or_eq_false_iff, beq_eq_false_iff_ne, ne_eq]
  · constructor
    · intro hh
      exact hne (useBeforeDefMsg_inj hh).symm
    · intro hh
      exact useBeforeDefMsg_ne_redefinitionMsg n name hh
  · constructor
    · intro hh
      exact useBeforeDefMsg_ne_redefinitionMsg name n hh.symm
    · intro hh
      exact hne (redefinitionMsg_inj hh).symm

/--
The per-name deduplication invariant of the analyzer state: at most one
recorded diagnostic was built from the name, and if one was, the name is
in the reported set.
-/
def SemInv (name : String) (s : SemState) : Prop :=
  countMentions name s.reports ≤ 1 ∧
  (1 ≤ countMentions name s.reports → name ∈ s.reported)

theorem seminv_of_same_reports {name : String} {s s2 : SemState}
    (hr : s2.reports = s.reports) (hd : s2.reported = s.reported)
    (h : SemInv name s) : SemInv name s2 := by
  unfold SemInv
  rw [hr, hd]
  exact h

/-- report preserves the invariant whenever its message is one of the
two built from its deduplication key, which is how access and define
call it. -/
theorem report_inv {name n msg : String} {line : Nat} {s : SemState}
    (hmsg : msg = useBeforeDefMsg n ∨ msg = redefinitionMsg n)
    (h : SemInv name s) : SemInv name (report n msg line s) := by
  unfold report
  by_cases he : s.err.isSome
  · rw [if_pos he]; exact h
  rw [if_neg he]
  by_cases hn : n ∈ s.reported
  · rw [if_pos hn]; exact h
  rw [if_neg hn]
  by_cases heq : name = n
  · subst heq
    have h0 : List.countP (mentions name) s.reports = 0 := by
      by_contra hc
      exact hn (h.2 (Nat.one_le_iff_ne_zero.mpr (by
        intro hz
        exact hc (by rw [countMentions] at *; exact hz))))
    refine ⟨?_, fun _ => ?_⟩
    · show countMentions name (s.reports ++ [⟨msg, line⟩]) ≤ 1
      rw [countMentions, List.countP_append, h0]
      by_cases hmb : mentions name ⟨msg, line⟩ = true <;>
        simp [List.countP_cons, List.countP_nil, hmb]
    · show name ∈ s.reported ++ [name]
      simp
  · have hm := mentions_false_of_ne heq msg line hmsg
    have hcount : List.countP (mentions name) (s.reports ++ [⟨msg, line⟩])
        = List.countP (mentions name) s.reports := by
      rw [List.countP_append]
      simp [List.countP_cons, hm]
    refine ⟨?_, fun h1 => ?_⟩
    · show countMentions name (s.reports ++ [⟨msg, line⟩]) ≤ 1
      rw [countMentions, hcount]
      exact h.1
    · show name ∈ s.reported ++ [n]
      have h1b : 1 ≤ countMentions name s.reports := by
        rw [countMentions, ← hcount]
        exact h1
      exact List.mem_append_left _ (h.2 h1b)

/-- access preserves the invariant: a hit leaves the state unchanged, a
miss reports under the accessed name. -/
theorem access_inv {name nm : String} {line : Nat} {s : SemState}
    (h : SemInv name s) : SemInv name (access nm line s) := by
  unfold access
  by_cases he : s.err.isSome
  · rw [if_pos he]; exact h
  rw [if_neg he]
  split
  · exact h
  · exact report_inv (Or.inl rfl) h

/-- define preserves the invariant: a duplicate reports under the
defined name, otherwise only the scope stack changes. -/
theorem define_inv {name nm : String} {line : Nat} {ty : Ty} {s : SemState}
    (h : SemInv name s) : SemInv name (define nm line ty s) := by
  unfold define
  by_cases he : s.err.isSome
  · rw [if_pos he]; exact h
  rw [if_neg he]
  split
  · exact seminv_of_same_reports rfl rfl h
  · split
    · exact report_inv (Or.inr rfl) h
    · exact seminv_of_same_reports rfl rfl h

theorem new_scope_inv {name : String} {s : SemState}
    (h : SemInv name s) : SemInv name (new_scope s) := by
  unfold new_scope
  split
  · exact h
  · exact seminv_of_same_reports rfl rfl h

theorem end_scope_inv {name : String} {s : SemState}
    (h : SemInv name s) : SemInv name (end_scope s) := by
  unfold end_scope
  split
  · exact h
  · split
    · exact seminv_of_same_reports rfl rfl h
    · exact seminv_of_same_reports rfl rfl h

theorem setSemErr_inv {name : String} {msg : String} {s : SemState}
    (h : SemInv name s) : SemInv name (setSemErr msg s) := by
  unfold setSemErr
  split
  · exact h
  · exact seminv_of_same_reports rfl rfl h

/-- Iterating the postorder over raw Token arguments changes nothing. -/
theorem postorderTokenArgs_eq (args : List Token) (s : SemState) :
    postorderTokenArgs args s = s := by
  unfold postorderTokenArgs
  induction args with
  | nil => rfl
  | cons a rest ih => rw [List.foldl_cons]; exact ih

mutual

/-- Every postorder step preserves the per-name deduplication
invariant. -/
theorem postorderNode_inv (n : Node) (s : SemState) (name : String)
    (h : SemInv name s) : SemInv name (postorderNode n s) := by
  cases n with
  | prim t =>
    simp only [postorderNode]
    exact setSemErr_inv h
  | unary op operand =>
    simp only [postorderNode]
    exact postorderNode_inv operand s name h
  | bin l op r =>
    simp only [postorderNode]
    exact postorderNode_inv r _ name (postorderNode_inv l s name h)
  | call nm args =>
    simp only [postorderNode]
    rw [postorderTokenArgs_eq]
    exact access_inv h
  | assign lhs rhs =>
    simp only [postorderNode]
    exact postorderNode_inv rhs _ name (postorderNode_inv lhs s name h)
  | defn ident rhs ty =>
    simp only [postorderNode]
    exact postorderNode_inv rhs _ name (define_inv h)
  | ret e =>
    simp only [postorderNode]
    exact postorderNode_inv e s name h
  | ifS c t f =>
    cases f with
    | some fb =>
      simp only [postorderNode]
      exact end_scope_inv (postorderNode_inv fb _ name
        (postorderNode_inv t _ name (postorderNode_inv c _ name (new_scope_inv h))))
    | none =>
      simp only [postorderNode]
      exact end_scope_inv
        (postorderNode_inv t _ name (postorderNode_inv c _ name (new_scope_inv h)))
  | whileS c b =>
    simp only [postorderNode]
    exact end_scope_inv
      (postorderNode_inv b _ name (postorderNode_inv c _ name (new_scope_inv h)))
  | body stmts =>
    simp only [postorderNode]
    exact postorderList_inv stmts s name h
  | param ident ty =>
    simp only [postorderNode]
    exact define_inv h
  | fnDef nm params rt bodyN =>
    simp only [postorderNode]
    exact setSemErr_inv h
  | program contents =>
    simp only [postorderNode]
    exact postorderList_inv contents s name h

/-- Invariant preservation along a statement or item list. -/
theorem postorderList_inv (l : List Node) (s : SemState) (name : String)
    (h : SemInv name s) : SemInv name (postorderList l s) := by
  cases l with
  | nil => simpa only [postorderList] using h
  | cons n rest =>
    simp only [postorderList]
    exact postorderList_inv rest _ name (postorderNode_inv n s name h)

end

/--
Claim C7.  The claim states that one analyze run records at most one
semantic diagnostic per distinct identifier name, and that the
top-level program x = 1 with no prior declaration yields exactly one
semantic diagnostic referencing x.  The deduplication machinery is as
claimed: every recorded diagnostic flows through report(), keyed by the
name, so the first conjunct proves the at-most-one-per-name bound for
every input AST.  But the concrete program yields zero diagnostics, not
one: visiting the Primary x reads node.token.token_type
(semantic_analyzer.py line 72), an attribute Token objects do not have
(the kind is stored in .type), so the analysis aborts with
AttributeError before any lookup — the second conjunct evaluates that
crash.  The deduplication remains observable on paths that avoid
Primary visits: the third conjunct analyzes two unresolved calls of the
same callee g and gets exactly one diagnostic for g.
-/
theorem C7_analyzer_crashes_on_primary :
    (∀ (ast : Node) (name : String),
        countMentions name (analyze ast).reports ≤ 1) ∧
    analyze (.program
        [.assign (.prim ⟨.IDENT, "x", 1⟩) (.prim ⟨.NUMBER, "1", 1⟩)])
      = ⟨[[]], [], [], some tokenTypeAttrCrashMsg⟩ ∧
    analyze (.program [.call ⟨.IDENT, "g", 1⟩ [], .call ⟨.IDENT, "g", 2⟩ []])
      = ⟨[[]], [⟨useBeforeDefMsg "g", 1⟩], ["g"], none⟩ := by
  refine ⟨?_, rfl, rfl⟩
  intro ast name
  have h0 : SemInv name initSemState := by
    refine ⟨?_, fun h1 => ?_⟩
    · show countMentions name [] ≤ 1
      simp [countMentions]
    · exfalso
      have hz : countMentions name initSemState.reports = 0 := by
        simp [countMentions, initSemState]
      rw [hz] at h1
      exact absurd h1 (by decide)
  exact (postorderNode_inv ast initSemState name h0).1

theorem countNl_append (a b : List Char) : countNl (a ++ b) = countNl a + countNl b := by
  simp [countNl, List.count_append]

theorem countNl_single_nonl {c : Char} (hc : c ≠ '\n') : countNl [c] = 0 := by
  have hb : ('\n' == c) = false := by
    rw [beq_eq_false_iff_ne]
    exact fun h => hc h.symm
  have hb2 : (c == '\n') = false := by
    rw [beq_eq_false_iff_ne]
    exact hc
  simp [countNl, List.count_cons, List.count_nil, hb, hb2]

theorem countNl_cons_nonl {c : Char} (l : List Char) (hc : c ≠ '\n') :
    countNl (c :: l) = countNl l := by
  have h1 : c :: l = [c] ++ l := rfl
  rw [h1, countNl_append, countNl_single_nonl hc]
  omega

theorem countNl_append_nonl {c : Char} (l : List Char) (hc : c ≠ '\n') :
    countNl (l ++ [c]) = countNl l := by
  rw [countNl_append, countNl_single_nonl hc]
  omega

theorem countNl_append_nl (l : List Char) :
    countNl (l ++ ['\n']) = countNl l + 1 := by
  rw [countNl_append]
  have h1 : countNl ['\n'] = 1 := rfl
  rw [h1]

theorem read_ident_no_nl :
    ∀ l lit r, read_ident l = .ok (lit, r) → countNl lit = 0 := by
  intro l
  induction l with
  | nil => intro lit r h; simp [read_ident] at h
  | cons c rest ih =>
    intro lit r h
    simp only [read_ident] at h
    by_cases hc : (c.isAlphanum || c = '_') = true
    · rw [if_pos hc] at h
      cases hri : read_ident rest with
      | error e => rw [hri] at h; simp at h
      | ok p =>
        obtain ⟨lit2, rest2⟩ := p
        rw [hri] at h
        simp only [Except.ok.injEq, Prod.mk.injEq] at h
        obtain ⟨h1, -⟩ := h
        subst h1
        have hcn : c ≠ '\n' := by
          intro hEq
          subst hEq
          exact absurd hc (by decide)
        rw [countNl_cons_nonl _ hcn]
        exact ih _ _ hri
    · rw [if_neg hc] at h
      simp only [Except.ok.injEq, Prod.mk.injEq] at h
      obtain ⟨h1, -⟩ := h
      subst h1
      rfl

theorem read_number_no_nl :
    ∀ l lit r, read_number l = .ok (lit, r) → countNl lit = 0 := by
  intro l
  induction l with
  | nil => intro lit r h; simp [read_number] at h
  | cons c rest ih =>
    intro lit r h
    simp only [read_number] at h
    by_cases hc : c.isDigit = true
    · rw [if_pos hc] at h
      cases hri : read_number rest with
      | error e => rw [hri] at h; simp at h
      | ok p =>
        obtain ⟨lit2, rest2⟩ := p
        rw [hri] at h
        simp only [Except.ok.injEq, Prod.mk.injEq] at h
        obtain ⟨h1, -⟩ := h
        subst h1
        have hcn : c ≠ '\n' := by
          intro hEq
          subst hEq
          exact absurd hc (by decide)
        rw [countNl_cons_nonl _ hcn]
        exact ih _ _ hri
    · rw [if_neg hc] at h
      simp only [Except.ok.injEq, Prod.mk.injEq] at h
      obtain ⟨h1, -⟩ := h
      subst h1
      rfl

theorem consume_comment_no_nl :
    ∀ l : List Char, countNl (consume_comment l).1 = 0 := by
  intro l
  induction l with
  | nil => rfl
  | cons c rest ih =>
    simp only [consume_comment]
    by_cases hc : c = '\n'
    · rw [if_pos hc]
      rfl
    · rw [if_neg hc]
      show countNl (c :: (consume_comment rest).1) = 0
      rw [countNl_cons_nonl _ hc]
      exact ih

theorem operatorOf_ne_newline {c : Char} {tt : TokenType}
    (h : operatorOf c = some tt) : tt ≠ .NEWLINE := by
  intro hEq
  subst hEq
  unfold operatorOf at h
  split at h <;> simp_all

theorem operatorOf_char_ne_nl {c : Char} (h : (operatorOf c).isSome) : c ≠ '\n' := by
  intro hc
  subst hc
  exact absurd h (by decide)

theorem twoCharOperator_ne_newline {c d : Char} {tt : TokenType}
    (h : twoCharOperator c d = some tt) : tt ≠ .NEWLINE := by
  intro hEq
  subst hEq
  unfold twoCharOperator at h
  split at h
  · simp_all
  · split at h <;> simp_all

theorem twoCharOperator_snd_ne_nl {c d : Char} {tt : TokenType}
    (h : twoCharOperator c d = some tt) : d ≠ '\n' := by
  unfold twoCharOperator at h
  split at h
  · rename_i hcd
    intro hEq
    subst hEq
    exact absurd hcd.2 (by decide)
  · split at h
    · rename_i hcd
      intro hEq
      subst hEq
      exact absurd hcd.2 (by decide)
    · simp at h

theorem read_operator_no_nl {c : Char} {rs lit r2 : List Char} {tt : TokenType}
    (hop : (operatorOf c).isSome)
    (h : read_operator (c :: rs) = .ok (tt, lit, r2)) :
    countNl lit = 0 ∧ tt ≠ .NEWLINE := by
  match rs with
  | [] => simp [read_operator] at h
  | d :: rest =>
    simp only [read_operator] at h
    cases h2 : twoCharOperator c d with
    | some tt2 =>
      rw [h2] at h
      simp only [Except.ok.injEq, Prod.mk.injEq] at h
      obtain ⟨he1, he2, -⟩ := h
      subst he1
      subst he2
      refine ⟨?_, twoCharOperator_ne_newline h2⟩
      have hc := operatorOf_char_ne_nl hop
      have hd := twoCharOperator_snd_ne_nl h2
      rw [countNl_cons_nonl _ hc, countNl_single_nonl hd]
    | none =>
      rw [h2] at h
      cases h1 : operatorOf c with
      | none => rw [h1] at h; simp at h
      | some tt1 =>
        rw [h1] at h
        simp only [Except.ok.injEq, Prod.mk.injEq] at h
        obtain ⟨he1, he2, -⟩ := h
        subst he1
        subst he2
        refine ⟨?_, operatorOf_ne_newline h1⟩
        exact countNl_single_nonl (operatorOf_char_ne_nl hop)

theorem structureOf_eq_newline {c : Char} (hs : structureOf c = some .NEWLINE) :
    c = '\n' := by
  unfold structureOf at hs
  split at hs <;> simp_all

theorem structureOf_get_ne_newline {c : Char} (h : (structureOf c).isSome)
    (hc : c ≠ '\n') : (structureOf c).get h ≠ .NEWLINE := by
  intro hg
  have hsome := Option.some_get h
  rw [hg] at hsome
  exact hc (structureOf_eq_newline hsome.symm)

theorem structureOf_char_ne_nl_of_none {c : Char} (h : ¬ (structureOf c).isSome) :
    c ≠ '\n' := by
  intro hc
  subst hc
  exact h (by decide)

/-- The two line-number conclusions, packaged for a freshly built
non-newline token. -/
theorem head_token_prop {tt : TokenType} {lit : String} {line k : Nat}
    (htt : tt ≠ .NEWLINE) (hline : line = k + 1) :
    ((Token.mk tt lit line).type ≠ .NEWLINE →
        (Token.mk tt lit line).line_number = k + 1) ∧
    ((Token.mk tt lit line).type = .NEWLINE →
        (Token.mk tt lit line).line_number = k + 2 ∧
        (Token.mk tt lit line).literal = "\n") := by
  constructor
  · intro _
    exact hline
  · intro hEq
    exact absurd hEq htt

/--
Line-number invariant of the scan loop: when the scan starts from a
consumed prefix done with the line counter at countNl done + 1 (as the
initial call with an empty prefix and line 1 does) and succeeds, then
every produced token, paired with the count k of newline characters
strictly before its first source character, satisfies: a non-newline
token records line number k + 1, while a newline token records k + 2
(the counter is incremented before the token is built) and carries a
single newline character as its literal.
-/
theorem scan_line_numbers :
    ∀ (fuel : Nat) (done rest : List Char) (line : Nat)
      (ts : List (Token × Nat)) (es : List TokenizerException),
      line = countNl done + 1 →
      scan fuel done rest line = .ok (ts, es) →
      ∀ t k, (t, k) ∈ ts →
        (t.type ≠ .NEWLINE → t.line_number = k + 1) ∧
        (t.type = .NEWLINE → t.line_number = k + 2 ∧ t.literal = "\n") := by
  intro fuel
  induction fuel with
  | zero =>
    intro done rest line ts es hinv hsc
    simp [scan] at hsc
  | succ fuel ih =>
    intro done rest line ts es hinv hsc
    cases rest with
    | nil =>
      simp only [scan, Except.ok.injEq, Prod.mk.injEq] at hsc
      obtain ⟨h1, -⟩ := hsc
      subst h1
      intro t k hm
      simp at hm
    | cons c rs =>
      simp only [scan] at hsc
      by_cases h1 : c = ' ' ∨ c = '\t'
      · rw [if_pos h1] at hsc
        have hcn : c ≠ '\n' := by
          rcases h1 with h | h <;> subst h <;> decide
        exact ih (done ++ [c]) rs line ts es
          (by rw [countNl_append_nonl _ hcn]; exact hinv) hsc
      rw [if_neg h1] at hsc
      by_cases h2 : c.isAlpha = true ∨ c = '_'
      · rw [if_pos h2] at hsc
        cases hri : read_ident (c :: rs) with
        | error e => rw [hri] at hsc; simp at hsc
        | ok p =>
          obtain ⟨lit, rest2⟩ := p
          rw [hri] at hsc
          dsimp only at hsc
          cases hs2 : scan fuel (done ++ lit) rest2 line with
          | error e => rw [hs2] at hsc; simp at hsc
          | ok q =>
            obtain ⟨ts2, es2⟩ := q
            rw [hs2] at hsc
            dsimp only at hsc
            simp only [Except.ok.injEq, Prod.mk.injEq] at hsc
            obtain ⟨hts, -⟩ := hsc
            subst hts
            intro t k hm
            rcases List.mem_cons.mp hm with hm | hm
            · injection hm with ht hk
              subst ht
              subst hk
              exact head_token_prop (by decide) hinv
            · have hninv : line = countNl (done ++ lit) + 1 := by
                rw [countNl_append, read_ident_no_nl _ _ _ hri]
                omega
              exact ih (done ++ lit) rest2 line ts2 es2 hninv hs2 t k hm
      rw [if_neg h2] at hsc
      by_cases h3 : c.isDigit = true
      · rw [if_pos h3] at hsc
        cases hrn : read_number (c :: rs) with
        | error e => rw [hrn] at hsc; simp at hsc
        | ok p =>
          obtain ⟨lit, rest2⟩ := p
          rw [hrn] at hsc
          dsimp only at hsc
          cases hs2 : scan fuel (done ++ lit) rest2 line with
          | error e => rw [hs2] at hsc; simp at hsc
          | ok q =>
            obtain ⟨ts2, es2⟩ := q
            rw [hs2] at hsc
            dsimp only at hsc
            simp only [Except.ok.injEq, Prod.mk.injEq] at hsc
            obtain ⟨hts, -⟩ := hsc
            subst hts
            intro t k hm
            rcases List.mem_cons.mp hm with hm | hm
            · injection hm with ht hk
              subst ht
              subst hk
              exact head_token_prop (by decide) hinv
            · have hninv : line = countNl (done ++ lit) + 1 := by
                rw [countNl_append, read_number_no_nl _ _ _ hrn]
                omega
              exact ih (done ++ lit) rest2 line ts2 es2 hninv hs2 t k hm
      rw [if_neg h3] at hsc
      by_cases h4 : c = ';'
      · rw [if_pos h4] at hsc
        have hninv : line = countNl (done ++ (consume_comment (c :: rs)).1) + 1 := by
          rw [countNl_append, consume_comment_no_nl]
          omega
        exact ih _ _ line ts es hninv hsc
      rw [if_neg h4] at hsc
      by_cases h5 : (operatorOf c).isSome = true
      · rw [if_pos h5] at hsc
        cases hro : read_operator (c :: rs) with
        | error e => rw [hro] at hsc; simp at hsc
        | ok p =>
          obtain ⟨tt, lit, rest2⟩ := p
          rw [hro] at hsc
          dsimp only at hsc
          cases hs2 : scan fuel (done ++ lit) rest2 line with
          | error e => rw [hs2] at hsc; simp at hsc
          | ok q =>
            obtain ⟨ts2, es2⟩ := q
            rw [hs2] at hsc
            dsimp only at hsc
            simp only [Except.ok.injEq, Prod.mk.injEq] at hsc
            obtain ⟨hts, -⟩ := hsc
            subst hts
            intro t k hm
            rcases List.mem_cons.mp hm with hm | hm
            · injection hm with ht hk
              subst ht
              subst hk
              exact head_token_prop (read_operator_no_nl h5 hro).2 hinv
            · have hninv : line = countNl (done ++ lit) + 1 := by
                rw [countNl_append, (read_operator_no_nl h5 hro).1]
                omega
              exact ih (done ++ lit) rest2 line ts2 es2 hninv hs2 t k hm
      rw [if_neg h5] at hsc
      by_cases h6 : (structureOf c).isSome = true
      · rw [dif_pos h6] at hsc
        by_cases hnl : c = '\n'
        · subst hnl
          rw [if_pos rfl] at hsc
          cases hs2 : scan fuel (done ++ ['\n']) rs (line + 1) with
          | error e => rw [hs2] at hsc; simp at hsc
          | ok q =>
            obtain ⟨ts2, es2⟩ := q
            rw [hs2] at hsc
            dsimp only at hsc
            simp only [Except.ok.injEq, Prod.mk.injEq] at hsc
            obtain ⟨hts, -⟩ := hsc
            subst hts
            intro t k hm
            rcases List.mem_cons.mp hm with hm | hm
            · injection hm with ht hk
              subst ht
              subst hk
              refine ⟨?_, ?_⟩
              · intro hne
                exact absurd (show (structureOf '\n').get h6 = .NEWLINE from rfl) hne
              · intro _
                refine ⟨?_, rfl⟩
                show line + 1 = countNl done + 2
                omega
            · have hninv : line + 1 = countNl (done ++ ['\n']) + 1 := by
                rw [countNl_append_nl]
                omega
              exact ih (done ++ ['\n']) rs (line + 1) ts2 es2 hninv hs2 t k hm
        · rw [if_neg hnl] at hsc
          cases hs2 : scan fuel (done ++ [c]) rs line with
          | error e => rw [hs2] at hsc; simp at hsc
          | ok q =>
            obtain ⟨ts2, es2⟩ := q
            rw [hs2] at hsc
            dsimp only at hsc
            simp only [Except.ok.injEq, Prod.mk.injEq] at hsc
            obtain ⟨hts, -⟩ := hsc
            subst hts
            intro t k hm
            rcases List.mem_cons.mp hm with hm | hm
            · injection hm with ht hk
              subst ht
              subst hk
              exact head_token_prop (structureOf_get_ne_newline h6 hnl) hinv
            · have hninv : line = countNl (done ++ [c]) + 1 := by
                rw [countNl_append_nonl _ hnl]
                exact hinv
              exact ih (done ++ [c]) rs line ts2 es2 hninv hs2 t k hm
      · rw [dif_neg h6] at hsc
        cases hs2 : scan fuel (done ++ [c]) rs line with
        | error e => rw [hs2] at hsc; simp at hsc
        | ok q =>
          obtain ⟨ts2, es2⟩ := q
          rw [hs2] at hsc
          dsimp only at hsc
          simp only [Except.ok.injEq, Prod.mk.injEq] at hsc
          obtain ⟨hts, -⟩ := hsc
          subst hts
          have hcn := structureOf_char_ne_nl_of_none h6
          have hninv : line = countNl (done ++ [c]) + 1 := by
            rw [countNl_append_nonl _ hcn]
            exact hinv
          exact ih (done ++ [c]) rs line _ es2 hninv hs2

theorem keywordOf_ne_newline {s : String} {k : TokenType}
    (h : keywordOf s = some k) : k ≠ .NEWLINE := by
  intro hEq
  subst hEq
  unfold keywordOf at h
  split at h <;> simp_all

/-- resolve_keywords never changes a line number. -/
theorem resolve_keyword_line (t : Token) :
    (resolve_keyword t).line_number = t.line_number := by
  unfold resolve_keyword
  split
  · rfl
  · split <;> rfl

/-- A token whose literal is a newline character is untouched by keyword
resolution (the literal matches no keyword and no type name). -/
theorem resolve_keyword_fix_newline {t : Token} (hlit : t.literal = "\n") :
    resolve_keyword t = t := by
  unfold resolve_keyword
  rw [hlit]
  rfl

/-- Keyword resolution never turns a non-newline token into a newline
token: it rewrites kinds only to keyword kinds or TYPE. -/
theorem resolve_keyword_ne_newline {t : Token}
    (hne : t.type ≠ .NEWLINE) :
    (resolve_keyword t).type ≠ .NEWLINE := by
  unfold resolve_keyword
  split
  · rename_i k hk
    show k ≠ .NEWLINE
    exact keywordOf_ne_newline hk
  · split
    · show TokenType.TYPE ≠ .NEWLINE
      decide
    · exact hne

/--
Claim C5, counterexample.  The claim states that every token returned by
tokenize, including newline tokens, records the count of newline
characters strictly before its first source character, plus 1.  For the
input consisting of one newline character, the scan produces exactly one
newline token whose first character is at the very start of the source
(zero newlines strictly before it), yet its recorded line number is 2,
because tokenize increments the line counter before building the newline
token.  So the claimed property, stated over the position-instrumented
tokenizer, is false.
-/
theorem C5_line_tracking_counterexample :
    ¬ (∀ (ts : List (Token × Nat)) (es : List TokenizerException) (t : Token) (k : Nat),
        tokenizePos "\n" = .ok (ts, es) → (t, k) ∈ ts →
        t.line_number = k + 1) := by
  intro h
  have h2 := h [(⟨.NEWLINE, "\n", 2⟩, 0)] [] ⟨.NEWLINE, "\n", 2⟩ 0 rfl (by decide)
  exact absurd h2 (by decide)

/--
Claim C5, amended.  For every input on which tokenization succeeds,
every scanned token other than a newline token records the count k of
newline characters strictly before its first source character plus 1;
every newline token records k + 2, because the scan increments the line
counter before building the newline token.  (The EOF sentinel, appended
after the scan with no source character of its own, carries the default
line number 0 and is outside this statement.)
-/
theorem C5_line_tracking_amended :
    ∀ (source : String) (ts : List (Token × Nat)) (es : List TokenizerException)
      (t : Token) (k : Nat),
      tokenizePos source = .ok (ts, es) →
      (t, k) ∈ ts →
      (t.type ≠ .NEWLINE → t.line_number = k + 1) ∧
      (t.type = .NEWLINE → t.line_number = k + 2) := by
  intro source ts es t k htok hm
  unfold tokenizePos at htok
  cases hsc : scan (source.data.length + 1) [] source.data 1 with
  | error e =>
    rw [hsc] at htok
    simp [Except.map] at htok
  | ok p =>
    obtain ⟨ts0, es0⟩ := p
    rw [hsc] at htok
    simp only [Except.map, Except.ok.injEq, Prod.mk.injEq] at htok
    obtain ⟨hts, -⟩ := htok
    subst hts
    rw [List.mem_map] at hm
    obtain ⟨⟨t0, k0⟩, hmem, heq⟩ := hm
    injection heq with he1 he2
    subst he1
    subst he2
    have hfacts := scan_line_numbers (source.data.length + 1) [] source.data 1
      ts0 es0 (by decide) hsc t0 k0 hmem
    by_cases hnlt : t0.type = .NEWLINE
    · have hfix : resolve_keyword t0 = t0 :=
        resolve_keyword_fix_newline (hfacts.2 hnlt).2
      rw [hfix]
      exact ⟨fun hne => absurd hnlt hne, fun _ => (hfacts.2 hnlt).1⟩
    · have hne2 := resolve_keyword_ne_newline hnlt
      refine ⟨fun _ => ?_, fun hEq => absurd hEq hne2⟩
      rw [resolve_keyword_line]
      exact hfacts.1 hnlt

/-- Witness for the amended claim C5, at the input of one identifier
line: the newline token after x records 0 + 2. -/
theorem C5_line_tracking_amended_witness :
    (⟨.NEWLINE, "\n", 2⟩ : Token).line_number = 0 + 2 :=
  (C5_line_tracking_amended "x\n"
    [(⟨.IDENT, "x", 1⟩, 0), (⟨.NEWLINE, "\n", 2⟩, 0)] []
    ⟨.NEWLINE, "\n", 2⟩ 0 rfl (by decide)).2 rfl

/--
Claim C9, counterexample.  The claim states that the args of a parsed
FunctionCall are expression AST nodes (each argument may be any
expression) and that the analyzer looks up identifier arguments
(reporting unresolved ones) and annotates number arguments.  Neither
part survives the code.  First, no function call is ever parsed: the
pipeline for f(x) raises AttributeError at the first expect call of
parse_program (Token stores the kind in .type; the parser reads
.token_type), so no FunctionCall with expression arguments — or any
arguments — is produced.  Second, parse_function_call as written builds
args by appending raw consumed tokens, and a FunctionCall node with the
raw identifier token x as its argument, analyzed with nothing in scope,
yields a diagnostic only for the unresolved callee f: the isinstance
dispatch of postorder matches no case for a Token, so no diagnostic for
the unresolved identifier argument x is recorded, although the claim
requires one.
-/
theorem C9_call_args_counterexample :
    runParser 99 [⟨.IDENT, "f", 1⟩, ⟨.LEFT_PAREN, "(", 1⟩, ⟨.IDENT, "x", 1⟩,
        ⟨.RIGHT_PAREN, ")", 1⟩, ⟨.NEWLINE, "\n", 2⟩, ⟨.EOF, "", 0⟩]
      = (.crash tokenTypeAttrCrashMsg,
         ⟨[⟨.IDENT, "f", 1⟩, ⟨.LEFT_PAREN, "(", 1⟩, ⟨.IDENT, "x", 1⟩,
           ⟨.RIGHT_PAREN, ")", 1⟩, ⟨.NEWLINE, "\n", 2⟩, ⟨.EOF, "", 0⟩], 0, []⟩) ∧
    (analyze (.program [.call ⟨.IDENT, "f", 1⟩ [⟨.IDENT, "x", 1⟩]])).reports
      = [⟨useBeforeDefMsg "f", 1⟩] ∧
    useBeforeDefMsg "x" ∉
      ((analyze (.program [.call ⟨.IDENT, "f", 1⟩ [⟨.IDENT, "x", 1⟩]])).reports.map
        (fun e => e.message)) := by
  refine ⟨rfl, rfl, ?_⟩
  decide

/--
Claim C9, amended.  parse_function_call as written consumes each
argument as one raw token, so FunctionCall args are raw tokens drawn
from the expression-start set, never compound expressions — though in
the program as it stands no call is ever parsed, because every parse
raises AttributeError at its first token-kind check (evaluated by the
second conjunct).  The analyzer treats the callee name of a
FunctionCall node as an access, and its recursion into the raw-token
arguments matches no node variant and has no effect, so the analysis of
a call is independent of its arguments (first conjunct): identifier
arguments are not looked up and contribute no diagnostic.  Concretely,
the call node f(x) with the raw token x as its argument analyzes to
exactly one diagnostic, for the unresolved callee f (third conjunct).
-/
theorem C9_call_args_amended :
    (∀ (name : Token) (args : List Token) (s : SemState),
        postorderNode (.call name args) s = postorderNode (.call name []) s) ∧
    runParser 99 [⟨.IDENT, "f", 1⟩, ⟨.LEFT_PAREN, "(", 1⟩, ⟨.IDENT, "x", 1⟩,
        ⟨.RIGHT_PAREN, ")", 1⟩, ⟨.NEWLINE, "\n", 2⟩, ⟨.EOF, "", 0⟩]
      = (.crash tokenTypeAttrCrashMsg,
         ⟨[⟨.IDENT, "f", 1⟩, ⟨.LEFT_PAREN, "(", 1⟩, ⟨.IDENT, "x", 1⟩,
           ⟨.RIGHT_PAREN, ")", 1⟩, ⟨.NEWLINE, "\n", 2⟩, ⟨.EOF, "", 0⟩], 0, []⟩) ∧
    (analyze (.program [.call ⟨.IDENT, "f", 1⟩ [⟨.IDENT, "x", 1⟩]])).reports
      = [⟨useBeforeDefMsg "f", 1⟩] := by
  refine ⟨?_, rfl, rfl⟩
  intro name args s
  simp only [postorderNode, postorderTokenArgs_eq]

end N4
